import Mathlib

/-!
Verification of the caller (chat-bot) layer of the course-recommendation
system, shallowly embedded from `src/bot.py`, together with a spec-modelled
recommendation core (the file `recommender.py` defining `CourseRecommender`
and `Course` is not part of the sources; it is modelled from the spec where
a claim needs it).

Python strings are modelled as `String`; lowercasing and substring search
are carried out on the underlying character lists.  Python floats are
modelled as exact rationals (`ℚ`).
-/

namespace CourseBot

/-- `s.lower()` on a Python string: the list of characters, lowercased. -/
def toLowerCL (s : String) : List Char := s.toList.map Char.toLower

/-- Python `ned in hay` on strings: `ned` occurs as a contiguous substring
of `hay` (the empty string occurs in every string). -/
def substrCL (ned hay : List Char) : Bool :=
  hay.tails.any (fun t => ned.isPrefixOf t)

/-- Python `s.strip()`: remove whitespace from both ends. -/
def stripCL (s : List Char) : List Char :=
  ((s.dropWhile Char.isWhitespace).reverse.dropWhile Char.isWhitespace).reverse

/-- A normalized course record (spec §3).  Optional categorical fields use
`none` as the "unset" marker; `rating` and `students_enrolled` are numeric. -/
structure Course where
  title : String
  organization : Option String
  certificate_type : Option String
  difficulty : Option String
  rating : ℚ
  students_enrolled : ℚ
deriving DecidableEq, Repr

/-- The per-chat preference record held by the caller layer: the two keys
the bot ever stores in a user's preference dict. -/
structure Prefs where
  difficulty : Option String
  certificate_type : Option String
deriving DecidableEq, Repr

/-- `bot.py` lines 98-104, inner predicate `ok` of `_apply_user_filters`:
`level`/`cert` are the saved preferences after `(prefs.get(...) or "").lower()`. -/
def filter_ok (level cert : List Char) (c : Course) : Bool :=
  let good := true
  let good := if level ≠ [] then
      good && substrCL level (toLowerCL ((c.difficulty).getD "")) else good
  let good := if cert ≠ [] then
      good && substrCL cert (toLowerCL ((c.certificate_type).getD "")) else good
  good

/-- `bot.py` lines 93-106, `_apply_user_filters`: keep the courses that pass
`ok` under the saved preferences. -/
def apply_user_filters (courses : List Course) (prefs : Prefs) : List Course :=
  let level := toLowerCL ((prefs.difficulty).getD "")
  let cert := toLowerCL ((prefs.certificate_type).getD "")
  courses.filter (filter_ok level cert)

/-- One-decimal fixed-point rendering of a rational, mirroring Python
f-string `:.1f` formatting under exact rational arithmetic (`round` is
round-half-up at exact midpoints; binary floats almost never represent an
exact midpoint, so this matters only on a measure-zero set of inputs). -/
def fmt1 (x : ℚ) : String :=
  let t : ℤ := round (10 * x)
  toString (t / 10) ++ "." ++ toString (t % 10)

/-- `bot.py` lines 76-80, `human_int`: shorten a count for display
("M" above a million, "k" above a thousand, integer truncation below). -/
def human_int (n : ℚ) : String :=
  if 1000000 ≤ n then fmt1 (n / 1000000) ++ "M"
  else if 1000 ≤ n then fmt1 (n / 1000) ++ "k"
  else toString (if n < 0 then ⌈n⌉ else ⌊n⌋)

/-! ### Spec-modelled recommendation core

`recommender.py` (defining `CourseRecommender` with `recommend` and
`trending`, and the `Course` dataclass) is not among the sources; the
definitions below are modelled from the spec (§4.2, §4.3). -/

/-- Insertion into a list sorted by the boolean "comes-before" relation
`le` (stable: an equal element is inserted after existing ones only when
`le` says so). -/
def insertOrd {α : Type} (le : α → α → Bool) (x : α) : List α → List α
  | [] => [x]
  | y :: ys => if le x y then x :: y :: ys else y :: insertOrd le x ys

/-- Stable insertion sort by the boolean "comes-before" relation `le`. -/
def isortOrd {α : Type} (le : α → α → Bool) : List α → List α
  | [] => []
  | x :: xs => insertOrd le x (isortOrd le xs)

/-- Modelled from the spec: §4.3 ordering for `trending` — descending
`students_enrolled`, tie-break descending `rating`, then lexicographic
`title`. -/
def trendBefore (a b : Course) : Bool :=
  if a.students_enrolled = b.students_enrolled then
    if a.rating = b.rating then decide (a.title ≤ b.title)
    else decide (b.rating < a.rating)
  else decide (b.students_enrolled < a.students_enrolled)

/-- Modelled from the spec: §4.3 `trending(top_k)` of the absent
`recommender.py` — sort the full catalog by `trendBefore` and return the
first `top_k` records. -/
def trending (cat : List Course) (top_k : Nat) : List Course :=
  (isortOrd trendBefore cat).take top_k

/-- Split a character list into maximal runs of alphanumeric characters
(query tokenization on whitespace/punctuation, spec §4.2 step 1);
`acc` holds the characters of the current token in reverse. -/
def wordsAux : List Char → List Char → List (List Char)
  | [], acc => if acc = [] then [] else [acc.reverse]
  | c :: cs, acc =>
    if c.isAlphanum then wordsAux cs (c :: acc)
    else (if acc = [] then [] else [acc.reverse]) ++ wordsAux cs []

/-- Modelled from the spec: §4.2 step 2 searchable text — lowercased title,
and organization if present. -/
def searchTextCL (c : Course) : List Char :=
  toLowerCL c.title ++ [' '] ++ toLowerCL ((c.organization).getD "")

/-- Modelled from the spec: §4.2 step 2 text-relevance — the fraction of
query tokens found as substrings of the searchable text, plus an
exact-phrase bonus when the whole normalized query occurs in the title. -/
def relevance (qn : List Char) (toks : List (List Char)) (c : Course) : ℚ :=
  let hits := (toks.filter (fun t => substrCL t (searchTextCL c))).length
  let frac : ℚ := if toks.length = 0 then 0 else (hits : ℚ) / (toks.length : ℚ)
  let phrase : ℚ := if substrCL qn (toLowerCL c.title) then 1/4 else 0
  frac + phrase

/-- Modelled from the spec: §4.2 step 3 quality prior — a bounded,
monotonically increasing, saturating function of `rating` and
`students_enrolled`, small enough never to dominate a text match. -/
def qualityPrior (c : Course) : ℚ :=
  c.rating / 50 + c.students_enrolled / (c.students_enrolled + 1000) / 20

/-- Modelled from the spec: §4.2 step 4 ordering — descending composite
score, tie-break higher `rating`, then higher `students_enrolled`, then
lexicographic `title`. -/
def recBefore (a b : ℚ × Course) : Bool :=
  if a.1 = b.1 then
    if a.2.rating = b.2.rating then
      if a.2.students_enrolled = b.2.students_enrolled then
        decide (a.2.title ≤ b.2.title)
      else decide (b.2.students_enrolled < a.2.students_enrolled)
    else decide (b.2.rating < a.2.rating)
  else decide (b.1 < a.1)

/-- Modelled from the spec: the strictly-positive relevance floor of
§4.2 step 5 (glossary: minimum composite score required for a record to be
eligible for return from `recommend`). -/
def RELEVANCE_FLOOR : ℚ := 1/20

/-- Modelled from the spec: §4.2 `recommend(query, top_k)` of the absent
`recommender.py` — normalize the query, score every record, sort by
`recBefore`, drop records at or below the relevance floor, return the
first `top_k`. -/
def recommend (cat : List Course) (query : String) (top_k : Nat) : List Course :=
  let qn := stripCL (toLowerCL query)
  let toks := wordsAux qn []
  if toks = [] then []
  else
    let scored := cat.map (fun c => (relevance qn toks c + qualityPrior c, c))
    let sorted := isortOrd recBefore scored
    ((sorted.filter (fun p => decide (RELEVANCE_FLOOR < p.1))).map Prod.snd).take top_k

/-! ### Handler models (`bot.py`) -/

/-- `bot.py` lines 222-240, `on_message`: `none` models the early `return`
on line 225 (reached before any `recommend` call and before any reply is
sent); `some rendered` models the run that replies with header text and
then renders exactly the courses in `rendered`, in order. -/
def on_message (cat : List Course) (prefs : Prefs) (text : String) :
    Option (List Course) :=
  let t := stripCL text.toList
  if t = [] then none
  else
    let pool := recommend cat (String.mk t) 25
    let picked := apply_user_filters pool prefs
    let picked := if picked = [] then pool.take 5 else picked
    some (picked.take 5)

/-- `bot.py` lines 212-219, `/top` handler: the courses rendered after the
"🔥 Trending courses:" header, in order. -/
def top_rendered (cat : List Course) (prefs : Prefs) : List Course :=
  let courses := trending cat 10
  let courses2 := apply_user_filters courses prefs
  let courses3 := if courses2 = [] then courses.take 5 else courses2
  courses3.take 5

/-! ### Per-chat preference store and the button handler -/

/-- The `USERS` dict of `bot.py` line 33, as an association list from chat
id to preference record. -/
abbrev Users := List (Int × Prefs)

/-- Dict lookup with the empty preference record as default: the value the
code observes through `USERS.get(chat_id, {})` / `.get(key, default)`. -/
def users_get : Users → Int → Prefs
  | [], _ => ⟨none, none⟩
  | (i, p) :: rest, k => if i = k then p else users_get rest k

/-- Dict key membership. -/
def users_has : Users → Int → Bool
  | [], _ => false
  | (i, _) :: rest, k => i = k || users_has rest k

/-- `USERS.setdefault(chat_id, {})`: insert an empty record if absent. -/
def users_setdefault (us : Users) (k : Int) : Users :=
  if users_has us k then us else us ++ [(k, ⟨none, none⟩)]

/-- `USERS[chat_id]["difficulty"] = v` (`bot.py` line 152). -/
def users_set_difficulty (us : Users) (k : Int) (v : String) : Users :=
  us.map (fun p => if p.1 = k then (p.1, { p.2 with difficulty := some v }) else p)

/-- `USERS[chat_id]["certificate_type"] = v` (`bot.py` line 162). -/
def users_set_certificate (us : Users) (k : Int) (v : String) : Users :=
  us.map (fun p => if p.1 = k then (p.1, { p.2 with certificate_type := some v }) else p)

/-- `bot.py` lines 142-210, `button`: the effect of one callback on the
preference store.  `data.split("_", 1)[1]` is `data.drop 6` (resp. `.drop 5`)
because the branch guard guarantees the prefix `"level_"` (resp. `"cert_"`);
the `confirm_save`, `back_to_cert`, `back_to_level` and `back_home` branches
only edit the message text, so the store is left as `users_setdefault` made
it. -/
def button_store_update (us : Users) (chat_id : Int) (data : String) : Users :=
  let us := users_setdefault us chat_id
  if "level_".isPrefixOf data then users_set_difficulty us chat_id (data.drop 6)
  else if "cert_".isPrefixOf data then users_set_certificate us chat_id (data.drop 5)
  else us

/-! ### Global error handler -/

/-- What one run of the error handler did: whether it logged the exception
and what reply text, if any, it delivered. -/
structure HandlerOutcome where
  logged : Bool
  replySent : Option String
deriving DecidableEq, Repr

/-- The fixed apology text of `bot.py` line 247. -/
def APOLOGY : String := "Oops, something went wrong. Try again."

/-- A reply attempt that may fail (the chat API call inside the `try`):
`replyFails` abstracts the environment making `reply_text` raise. -/
def reply_attempt (replyFails : Bool) (msg : String) : Except String (Option String) :=
  if replyFails then Except.error "reply failed" else Except.ok (some msg)

/-- `bot.py` lines 243-249, `error_handler` (registered globally by `main`
on line 264): logs, then inside a `try` replies with the apology whenever
the update is an `Update` carrying an effective message
(`hasEffectiveMessage`), and swallows any exception of the reply
(`except Exception: pass` is the `Except.error` branch).  The return type
`HandlerOutcome` (not `Except`) expresses that the handler itself never
propagates an exception. -/
def error_handler (hasEffectiveMessage : Bool) (replyFails : Bool) : HandlerOutcome :=
  let logged := true
  let attempted : Except String (Option String) :=
    if hasEffectiveMessage then reply_attempt replyFails APOLOGY else Except.ok none
  match attempted with
  | Except.ok s => { logged := logged, replySent := s }
  | Except.error _ => { logged := logged, replySent := none }

/-! ### Claim-side (spec-worded) definitions -/

/-- Satisfaction of one preference, worded as in the spec claim: an absent
or empty preference imposes no constraint; a set preference is satisfied
iff its lowercased text occurs as a substring of the lowercased course
field. -/
def satisfies_pref (pref field : Option String) : Bool :=
  match pref with
  | none => true
  | some p => if p = "" then true else substrCL (toLowerCL p) (toLowerCL (field.getD ""))

/-- A course satisfies every set preference. -/
def course_matches (prefs : Prefs) (c : Course) : Bool :=
  satisfies_pref prefs.difficulty c.difficulty &&
  satisfies_pref prefs.certificate_type c.certificate_type

/-- One-decimal rendering as the claim words it: the value rounded to one
decimal place (half-up at exact midpoints), integer part, dot, one digit. -/
def oneDecC8 (x : ℚ) : String :=
  toString (⌊10 * x + 1 / 2⌋ / 10) ++ "." ++ toString (⌊10 * x + 1 / 2⌋ % 10)

/-! ### Helper lemmas -/

theorem toLowerCL_eq_nil (s : String) : toLowerCL s = [] ↔ s = "" := by
  cases s with
  | mk d => simp [toLowerCL, String.toList, String.ext_iff]

theorem substrCL_nil (ned : List Char) (h : ned ≠ []) : substrCL ned [] = false := by
  cases ned with
  | nil => exact absurd rfl h
  | cons c cs => simp [substrCL, List.isPrefixOf]

theorem pref_guard_eq (od field : Option String) (b : Bool) :
    (if toLowerCL (od.getD "") ≠ [] then
        b && substrCL (toLowerCL (od.getD "")) (toLowerCL (field.getD ""))
      else b) = (b && satisfies_pref od field) := by
  cases od with
  | none => simp [toLowerCL, satisfies_pref]
  | some p =>
    simp only [Option.getD_some]
    by_cases hp : p = ""
    · subst hp; simp [toLowerCL, satisfies_pref]
    · have hne : toLowerCL p ≠ [] := fun h => hp ((toLowerCL_eq_nil p).mp h)
      rw [if_pos hne]
      simp [satisfies_pref, hp]

theorem filter_ok_eq_matches (prefs : Prefs) (c : Course) :
    filter_ok (toLowerCL ((prefs.difficulty).getD ""))
      (toLowerCL ((prefs.certificate_type).getD "")) c = course_matches prefs c := by
  unfold filter_ok
  simp only []
  rw [pref_guard_eq, pref_guard_eq]
  simp [course_matches, Bool.and_assoc]

theorem auf_sublist (courses : List Course) (prefs : Prefs) :
    (apply_user_filters courses prefs).Sublist courses :=
  List.filter_sublist courses

/-! ### Claims about `_apply_user_filters` -/

/-- C1: `_apply_user_filters` returns exactly the courses that satisfy
every set preference, where a set difficulty (resp. certificate_type)
preference is satisfied iff its lowercased text occurs as a substring of
the course's lowercased field, and an absent or empty preference imposes
no constraint.  (The engine side of the claim is structural: the
spec-modelled `recommend` and `trending` take no preference argument at
all, so the engine output reaches the user filtered only by this
caller-side function.) -/
theorem C1_filter_characterization (courses : List Course) (prefs : Prefs) :
    apply_user_filters courses prefs = courses.filter (course_matches prefs) := by
  unfold apply_user_filters
  exact List.filter_congr (fun c _ => filter_ok_eq_matches prefs c)

/-- C2 as stated is false: a course whose difficulty field is unset IS
excluded by `_apply_user_filters` when a difficulty preference is set —
`level in (c.difficulty or "").lower()` is `False` for a non-empty `level`
against the empty string.  Concretely, a course with `difficulty = none`
is dropped under the preference `difficulty = "Beginner"`. -/
theorem C2_counterexample :
    apply_user_filters
      [{ title := "Intro to AI", organization := none, certificate_type := none,
         difficulty := none, rating := 0, students_enrolled := 0 }]
      { difficulty := some "Beginner", certificate_type := none } = [] := by
  decide

theorem filter_ok_false_left (level cert : List Char) (c : Course)
    (hl : level ≠ []) (hd : toLowerCL ((c.difficulty).getD "") = []) :
    filter_ok level cert c = false := by
  unfold filter_ok
  simp [hl, hd, substrCL_nil level hl]

theorem filter_ok_false_right (level cert : List Char) (c : Course)
    (hc : cert ≠ []) (hd : toLowerCL ((c.certificate_type).getD "") = []) :
    filter_ok level cert c = false := by
  unfold filter_ok
  simp [hc, hd, substrCL_nil cert hc]

/-- C2 amended: a course whose difficulty (resp. certificate_type) field is
unset (None or empty) is EXCLUDED by `_apply_user_filters` whenever the
corresponding preference is set to a non-empty string — the filter treats
an unset field as "exclude", not "don't exclude". -/
theorem C2_amended_unset_excluded (courses : List Course) (prefs : Prefs)
    (c : Course)
    (h : ((c.difficulty).getD "" = "" ∧ (prefs.difficulty).getD "" ≠ "") ∨
         ((c.certificate_type).getD "" = "" ∧ (prefs.certificate_type).getD "" ≠ "")) :
    c ∉ apply_user_filters courses prefs := by
  intro hin
  unfold apply_user_filters at hin
  have hok := (List.mem_filter.mp hin).2
  rcases h with ⟨hf, hp⟩ | ⟨hf, hp⟩
  · have hl : toLowerCL ((prefs.difficulty).getD "") ≠ [] :=
      fun h' => hp ((toLowerCL_eq_nil _).mp h')
    have hfe : toLowerCL ((c.difficulty).getD "") = [] := by
      rw [hf]; rfl
    rw [filter_ok_false_left _ _ c hl hfe] at hok
    exact Bool.false_ne_true hok
  · have hc : toLowerCL ((prefs.certificate_type).getD "") ≠ [] :=
      fun h' => hp ((toLowerCL_eq_nil _).mp h')
    have hfe : toLowerCL ((c.certificate_type).getD "") = [] := by
      rw [hf]; rfl
    rw [filter_ok_false_right _ _ c hc hfe] at hok
    exact Bool.false_ne_true hok

/-- Witness for the amended C2 at a concrete input. -/
theorem C2_amended_witness :
    (({ title := "Intro to AI", organization := none, certificate_type := none,
        difficulty := none, rating := 0, students_enrolled := 0 } : Course).difficulty.getD ""
        = "" ∧
      ({ difficulty := some "Advanced", certificate_type := none } : Prefs).difficulty.getD ""
        ≠ "") ∧
    ({ title := "Intro to AI", organization := none, certificate_type := none,
       difficulty := none, rating := 0, students_enrolled := 0 } : Course) ∉
      apply_user_filters
        [{ title := "Intro to AI", organization := none, certificate_type := none,
           difficulty := none, rating := 0, students_enrolled := 0 }]
        { difficulty := some "Advanced", certificate_type := none } :=
  ⟨⟨by decide, by decide⟩,
   C2_amended_unset_excluded _ _ _ (Or.inl ⟨by decide, by decide⟩)⟩

/-- C9: with both preferences absent or empty, `_apply_user_filters` is the
identity on its course-list argument. -/
theorem C9_no_prefs_identity (courses : List Course) (prefs : Prefs)
    (hd : prefs.difficulty = none ∨ prefs.difficulty = some "")
    (hc : prefs.certificate_type = none ∨ prefs.certificate_type = some "") :
    apply_user_filters courses prefs = courses := by
  unfold apply_user_filters
  have hl : toLowerCL ((prefs.difficulty).getD "") = [] := by
    rcases hd with h | h <;> simp [h, toLowerCL]
  have hcl : toLowerCL ((prefs.certificate_type).getD "") = [] := by
    rcases hc with h | h <;> simp [h, toLowerCL]
  simp [hl, hcl, filter_ok]

/-- Witness for C9 at a concrete input. -/
theorem C9_witness :
    ((Prefs.mk none (some "")).difficulty = none ∨
       (Prefs.mk none (some "")).difficulty = some "") ∧
    ((Prefs.mk none (some "")).certificate_type = none ∨
       (Prefs.mk none (some "")).certificate_type = some "") ∧
    apply_user_filters
      [{ title := "Excel Basics", organization := some "X", certificate_type := none,
         difficulty := some "Mixed", rating := 4, students_enrolled := 50000 }]
      (Prefs.mk none (some "")) =
      [{ title := "Excel Basics", organization := some "X", certificate_type := none,
         difficulty := some "Mixed", rating := 4, students_enrolled := 50000 }] :=
  ⟨Or.inl rfl, Or.inr rfl,
   C9_no_prefs_identity _ _ (Or.inl rfl) (Or.inr rfl)⟩

/-- C10: `_apply_user_filters` returns an order-preserving subsequence of
its input (the input list itself is a value, never mutated), and it is
idempotent under the same preferences. -/
theorem C10_sublist_idempotent (courses : List Course) (prefs : Prefs) :
    (apply_user_filters courses prefs).Sublist courses ∧
    apply_user_filters (apply_user_filters courses prefs) prefs =
      apply_user_filters courses prefs := by
  refine ⟨auf_sublist courses prefs, ?_⟩
  unfold apply_user_filters
  simp [List.filter_filter]

/-! ### Claims about the message and command handlers -/

theorem recommend_length_le (cat : List Course) (q : String) (k : Nat) :
    (recommend cat q k).length ≤ k := by
  unfold recommend
  simp only []
  split
  · simp
  · simp [List.length_take]

theorem trending_length_le (cat : List Course) (k : Nat) :
    (trending cat k).length ≤ k := by
  unfold trending
  simp [List.length_take]

theorem take_ne_nil_of_ne_nil {α : Type} (l : List α) (n : Nat) (h : l ≠ [])
    (hn : n ≠ 0) : l.take n ≠ [] := by
  simp [List.take_eq_nil_iff, h, hn]

/-- C3: for a non-blank inbound message, `on_message` draws a pool of at
most 25 records from `recommend`, renders the first at most 5 of the
preference-filtered pool — falling back to the first at most 5 of the
unfiltered pool exactly when the filtered pool is empty — so a non-empty
pool always yields at least one rendered course, and every rendered course
comes from the pool in the engine's order. -/
theorem C3_on_message_selection (cat : List Course) (prefs : Prefs) (text : String)
    (h : stripCL text.toList ≠ []) :
    let pool := recommend cat (String.mk (stripCL text.toList)) 25
    let picked := apply_user_filters pool prefs
    let rendered := (if picked = [] then pool.take 5 else picked).take 5
    on_message cat prefs text = some rendered ∧
    pool.length ≤ 25 ∧
    rendered.Sublist pool ∧
    rendered.length ≤ 5 ∧
    (pool ≠ [] → rendered ≠ []) := by
  intro pool picked rendered
  have hmsg : on_message cat prefs text = some rendered := by
    unfold on_message
    rw [if_neg h]
  refine ⟨hmsg, recommend_length_le cat _ 25, ?_, ?_, ?_⟩
  · show rendered.Sublist pool
    by_cases hp : picked = []
    · have : rendered = pool.take 5 := by
        simp [rendered, hp, List.take_take]
      rw [this]
      exact List.take_sublist 5 pool
    · have : rendered = picked.take 5 := by simp [rendered, hp]
      rw [this]
      exact (List.take_sublist 5 picked).trans (auf_sublist pool prefs)
  · show rendered.length ≤ 5
    have : rendered.length = min 5 (if picked = [] then pool.take 5 else picked).length :=
      List.length_take 5 _
    omega
  · intro hpool
    by_cases hp : picked = []
    · have : rendered = pool.take 5 := by
        simp [rendered, hp, List.take_take]
      rw [this]
      exact take_ne_nil_of_ne_nil pool 5 hpool (by omega)
    · have : rendered = picked.take 5 := by simp [rendered, hp]
      rw [this]
      exact take_ne_nil_of_ne_nil picked 5 hp (by omega)

/-- Witness for C3 at a concrete input (empty catalog, no preferences,
query "python"). -/
theorem C3_witness :
    stripCL ("python".toList) ≠ [] ∧
    (let pool := recommend [] (String.mk (stripCL ("python".toList))) 25
     let picked := apply_user_filters pool { difficulty := none, certificate_type := none }
     let rendered := (if picked = [] then pool.take 5 else picked).take 5
     on_message [] { difficulty := none, certificate_type := none } "python" = some rendered ∧
     pool.length ≤ 25 ∧
     rendered.Sublist pool ∧
     rendered.length ≤ 5 ∧
     (pool ≠ [] → rendered ≠ [])) :=
  ⟨by decide, C3_on_message_selection [] _ "python" (by decide)⟩

/-- C4: the `/top` handler draws the top 10 records from `trending`,
applies the caller-side preference filter, falls back to the first 5
unfiltered trending records exactly when the filter result is empty, and
renders at most 5 courses, each among the 10 returned by `trending` and in
trending's order. -/
theorem C4_top_selection (cat : List Course) (prefs : Prefs) :
    let pool := trending cat 10
    let picked := apply_user_filters pool prefs
    top_rendered cat prefs = (if picked = [] then pool.take 5 else picked).take 5 ∧
    pool.length ≤ 10 ∧
    (top_rendered cat prefs).Sublist pool ∧
    (top_rendered cat prefs).length ≤ 5 := by
  intro pool picked
  have heq : top_rendered cat prefs =
      (if picked = [] then pool.take 5 else picked).take 5 := by
    unfold top_rendered
    rfl
  refine ⟨heq, trending_length_le cat 10, ?_, ?_⟩
  · rw [heq]
    by_cases hp : picked = []
    · rw [if_pos hp, List.take_take]
      exact List.take_sublist _ pool
    · rw [if_neg hp]
      exact (List.take_sublist 5 picked).trans (auf_sublist pool prefs)
  · rw [heq]
    have := List.length_take 5 (if picked = [] then pool.take 5 else picked)
    omega

/-- C5: a message that is empty or all-whitespace after stripping makes
`on_message` return before calling `recommend` and before sending any
reply (`none` in the model is the early return on line 225). -/
theorem C5_empty_message_noop (cat : List Course) (prefs : Prefs) (text : String)
    (h : stripCL text.toList = []) :
    on_message cat prefs text = none := by
  unfold on_message
  rw [if_pos h]

/-- Witness for C5 at a concrete input (an all-whitespace message). -/
theorem C5_witness :
    stripCL ("   ".toList) = [] ∧
    on_message [] { difficulty := none, certificate_type := none } "   " = none :=
  ⟨by decide, C5_empty_message_noop [] _ "   " (by decide)⟩

/-! ### Claim about the global error handler -/

/-- C6: every run of the registered error handler logs the exception,
replies with the fixed apology text exactly when the update carries an
effective message and the reply itself does not fail, and never propagates
an exception: `error_handler` is a total function into `HandlerOutcome`,
the `except Exception: pass` being its `Except.error` branch, so a failing
reply yields an outcome (with no reply sent) rather than an error. -/
theorem C6_error_handler (hasEffectiveMessage replyFails : Bool) :
    (error_handler hasEffectiveMessage replyFails).logged = true ∧
    (error_handler hasEffectiveMessage replyFails).replySent =
      (if hasEffectiveMessage && !replyFails then some APOLOGY else none) := by
  cases hasEffectiveMessage <;> cases replyFails <;>
    simp [error_handler, reply_attempt]

/-! ### Claim about the button handler's effect on the preference store -/

theorem users_get_append_single (us : Users) (c : Int) (e : Prefs) (k : Int) :
    users_get (us ++ [(c, e)]) k =
      if users_has us k then users_get us k
      else if c = k then e else ⟨none, none⟩ := by
  induction us with
  | nil => simp [users_get, users_has]
  | cons hd tl ih =>
    obtain ⟨i, p⟩ := hd
    by_cases hik : i = k <;> simp [users_get, users_has, hik, ih]

theorem users_get_default_of_not_has (us : Users) (k : Int)
    (h : users_has us k = false) : users_get us k = ⟨none, none⟩ := by
  induction us with
  | nil => rfl
  | cons hd tl ih =>
    obtain ⟨i, p⟩ := hd
    simp [users_has] at h
    simp [users_get, h.1, ih h.2]

theorem users_get_setdefault (us : Users) (c : Int) (k : Int) :
    users_get (users_setdefault us c) k = users_get us k := by
  unfold users_setdefault
  split
  · rfl
  · rename_i hns
    rw [users_get_append_single]
    by_cases hk : users_has us k = true
    · rw [if_pos hk]
    · rw [if_neg hk, users_get_default_of_not_has us k (by simpa using hk)]
      split <;> rfl

theorem users_has_setdefault (us : Users) (c : Int) :
    users_has (users_setdefault us c) c = true := by
  unfold users_setdefault
  split
  · assumption
  · induction us with
    | nil => simp [users_has]
    | cons hd tl ih =>
      obtain ⟨i, p⟩ := hd
      simp_all [users_has]

theorem users_set_difficulty_get_ne (us : Users) (c : Int) (v : String) (k : Int)
    (hk : k ≠ c) : users_get (users_set_difficulty us c v) k = users_get us k := by
  induction us with
  | nil => rfl
  | cons hd tl ih =>
    obtain ⟨i, p⟩ := hd
    show users_get ((if i = c then (i, { p with difficulty := some v }) else (i, p)) ::
        users_set_difficulty tl c v) k = users_get ((i, p) :: tl) k
    by_cases hic : i = c
    · rw [if_pos hic]
      have hik : ¬ i = k := fun h => hk (h ▸ hic)
      simp [users_get, hik, ih]
    · rw [if_neg hic]
      simp [users_get, ih]

theorem users_set_difficulty_get_eq (us : Users) (c : Int) (v : String)
    (h : users_has us c = true) :
    users_get (users_set_difficulty us c v) c =
      { users_get us c with difficulty := some v } := by
  induction us with
  | nil => simp [users_has] at h
  | cons hd tl ih =>
    obtain ⟨i, p⟩ := hd
    show users_get ((if i = c then (i, { p with difficulty := some v }) else (i, p)) ::
        users_set_difficulty tl c v) c =
      { users_get ((i, p) :: tl) c with difficulty := some v }
    by_cases hic : i = c
    · rw [if_pos hic]
      simp [users_get, hic]
    · rw [if_neg hic]
      have h' : users_has tl c = true := by
        simpa [users_has, hic] using h
      simp [users_get, hic, ih h']

theorem users_set_certificate_get_ne (us : Users) (c : Int) (v : String) (k : Int)
    (hk : k ≠ c) : users_get (users_set_certificate us c v) k = users_get us k := by
  induction us with
  | nil => rfl
  | cons hd tl ih =>
    obtain ⟨i, p⟩ := hd
    show users_get ((if i = c then (i, { p with certificate_type := some v }) else (i, p)) ::
        users_set_certificate tl c v) k = users_get ((i, p) :: tl) k
    by_cases hic : i = c
    · rw [if_pos hic]
      have hik : ¬ i = k := fun h => hk (h ▸ hic)
      simp [users_get, hik, ih]
    · rw [if_neg hic]
      simp [users_get, ih]

theorem users_set_certificate_get_eq (us : Users) (c : Int) (v : String)
    (h : users_has us c = true) :
    users_get (users_set_certificate us c v) c =
      { users_get us c with certificate_type := some v } := by
  induction us with
  | nil => simp [users_has] at h
  | cons hd tl ih =>
    obtain ⟨i, p⟩ := hd
    show users_get ((if i = c then (i, { p with certificate_type := some v }) else (i, p)) ::
        users_set_certificate tl c v) c =
      { users_get ((i, p) :: tl) c with certificate_type := some v }
    by_cases hic : i = c
    · rw [if_pos hic]
      simp [users_get, hic]
    · rw [if_neg hic]
      have h' : users_has tl c = true := by
        simpa [users_has, hic] using h
      simp [users_get, hic, ih h']

/-- C7: one button callback touches at most the one preference field its
branch names, for the originating chat only: a `level_…` press sets only
`difficulty`, a `cert_…` press sets only `certificate_type` (the stored
difficulty is untouched), every other callback (`confirm_save`,
`back_to_cert`, `back_to_level`, `back_home`) leaves the stored
preferences as they were, and no branch changes the preferences observed
for any chat id other than the originating one. -/
theorem C7_button_frame (us : Users) (chat_id : Int) (data : String) (k : Int)
    (hk : k ≠ chat_id) :
    users_get (button_store_update us chat_id data) k = users_get us k ∧
    ("level_".isPrefixOf data = true →
      users_get (button_store_update us chat_id data) chat_id =
        { users_get us chat_id with difficulty := some (data.drop 6) }) ∧
    ("level_".isPrefixOf data = false → "cert_".isPrefixOf data = true →
      users_get (button_store_update us chat_id data) chat_id =
        { users_get us chat_id with certificate_type := some (data.drop 5) }) ∧
    ("level_".isPrefixOf data = false → "cert_".isPrefixOf data = false →
      users_get (button_store_update us chat_id data) chat_id =
        users_get us chat_id) := by
  unfold button_store_update
  refine ⟨?_, ?_, ?_, ?_⟩
  · by_cases hl : "level_".isPrefixOf data
    · rw [if_pos hl, users_set_difficulty_get_ne _ _ _ _ hk,
        users_get_setdefault]
    · by_cases hc : "cert_".isPrefixOf data
      · rw [if_neg hl, if_pos hc, users_set_certificate_get_ne _ _ _ _ hk,
          users_get_setdefault]
      · rw [if_neg hl, if_neg hc, users_get_setdefault]
  · intro hl
    rw [if_pos hl,
      users_set_difficulty_get_eq _ _ _ (users_has_setdefault us chat_id),
      users_get_setdefault]
  · intro hl hc
    rw [if_neg (by simp [hl]), if_pos hc,
      users_set_certificate_get_eq _ _ _ (users_has_setdefault us chat_id),
      users_get_setdefault]
  · intro hl hc
    rw [if_neg (by simp [hl]), if_neg (by simp [hc]), users_get_setdefault]

/-- Witness for C7 at a concrete input: one `level_Beginner` press by chat
1 on an empty store, observed from chat 2. -/
theorem C7_witness :
    (2 : Int) ≠ 1 ∧
    (users_get (button_store_update [] 1 "level_Beginner") 2 = users_get [] 2 ∧
     ("level_".isPrefixOf "level_Beginner" = true →
       users_get (button_store_update [] 1 "level_Beginner") 1 =
         { users_get [] 1 with difficulty := some ("level_Beginner".drop 6) }) ∧
     ("level_".isPrefixOf "level_Beginner" = false →
       "cert_".isPrefixOf "level_Beginner" = true →
       users_get (button_store_update [] 1 "level_Beginner") 1 =
         { users_get [] 1 with certificate_type := some ("level_Beginner".drop 5) }) ∧
     ("level_".isPrefixOf "level_Beginner" = false →
       "cert_".isPrefixOf "level_Beginner" = false →
       users_get (button_store_update [] 1 "level_Beginner") 1 = users_get [] 1)) :=
  ⟨by decide, C7_button_frame [] 1 "level_Beginner" 2 (by decide)⟩

/-! ### Claim about the presentation helper `human_int` -/

theorem fmt1_eq_oneDecC8 (x : ℚ) : fmt1 x = oneDecC8 x := by
  unfold fmt1 oneDecC8
  rw [round_eq]

/-- C8: for every non-negative (finite) `n`, `human_int` renders
`n / 1000000` to one decimal place with suffix "M" when `n ≥ 1000000`,
`n / 1000` to one decimal place with suffix "k" when `1000 ≤ n < 1000000`,
and the integer truncation of `n` below 1000; in particular `7600`
renders as "7.6k" and `1200000` as "1.2M", inverting the dataset's k/m
shorthand.  (Python floats are modelled as exact rationals; at an exact
decimal midpoint the model rounds half-up while float formatting rounds
the nearest binary value, a set of inputs float data essentially never
hits.) -/
theorem C8_human_int (n : ℚ) (h0 : 0 ≤ n) :
    (1000000 ≤ n → human_int n = oneDecC8 (n / 1000000) ++ "M") ∧
    (1000 ≤ n → n < 1000000 → human_int n = oneDecC8 (n / 1000) ++ "k") ∧
    (n < 1000 → human_int n = toString ⌊n⌋) ∧
    human_int 7600 = "7.6k" ∧ human_int 1200000 = "1.2M" := by
  refine ⟨?_, ?_, ?_, ?_, ?_⟩
  · intro h
    rw [human_int, if_pos h, fmt1_eq_oneDecC8]
  · intro h1 h2
    rw [human_int, if_neg (not_le.mpr h2), if_pos h1, fmt1_eq_oneDecC8]
  · intro h
    rw [human_int, if_neg (by linarith), if_neg (by linarith),
      if_neg (not_lt.mpr h0)]
  · have e1 : round ((10:ℚ) * (7600 / 1000)) = 76 := by norm_num [round_eq]
    rw [human_int, if_neg (by norm_num), if_pos (by norm_num), fmt1]
    simp only [e1]
    rfl
  · have e1 : round ((10:ℚ) * (1200000 / 1000000)) = 12 := by norm_num [round_eq]
    rw [human_int, if_pos (by norm_num), fmt1]
    simp only [e1]
    rfl

/-- Witness for C8 at the concrete input 7600. -/
theorem C8_witness :
    (0 : ℚ) ≤ 7600 ∧
    ((1000000 ≤ (7600 : ℚ) →
        human_int 7600 = oneDecC8 ((7600 : ℚ) / 1000000) ++ "M") ∧
     (1000 ≤ (7600 : ℚ) → (7600 : ℚ) < 1000000 →
        human_int 7600 = oneDecC8 ((7600 : ℚ) / 1000) ++ "k") ∧
     ((7600 : ℚ) < 1000 → human_int 7600 = toString ⌊(7600 : ℚ)⌋) ∧
     human_int 7600 = "7.6k" ∧ human_int 1200000 = "1.2M") :=
  ⟨by decide, C8_human_int 7600 (by decide)⟩

end CourseBot
